import Mathlib

/-!
Shallow embedding of the settlement-certificate correlation engine of
`contract_utils.py` (class `ContractInteractor`): the backward scanner
`get_previous_settlement_event`, the event decoder
`_decode_settlement_event`, the certificate correlator
`_enrich_settlement_with_certificate_data`, and the relative-time
formatter `get_relative_time`.

External effects (chain log queries, block/receipt fetches, the remote
AggLayer JSON-RPC index, wall-clock time, datetime formatting) are
modelled as explicit oracle fields of a `World` record; a Python call
that can raise is an `Except Unit` value; `try/except` blocks become
`match` on that value.  `call_agglayer_rpc` catches every exception
internally and returns `None` on any failure, so remote-index calls are
modelled as `Option CertHeader` (no raising).  Python dictionary values
of heterogeneous type are modelled by `PyVal`; a key that may be absent
or `None` is `PyVal.vnone` (both are falsy, which is all the code ever
tests).
-/

/-- Python dictionary value as used by certificate headers and settlement
dicts: `None`, a string, or an integer. -/
inductive PyVal where
  | vnone : PyVal
  | vstr : String → PyVal
  | vint : Int → PyVal
deriving DecidableEq, Repr

/-- Python truthiness for the values the code tests with `if not x`. -/
def PyVal.truthy : PyVal → Bool
  | .vnone => false
  | .vstr s => !s.isEmpty
  | .vint n => n != 0

/-- Python string slice `s[a:b]` with `0 ≤ a ≤ b`: silently truncates when
the string is shorter than `b` (never raises). -/
def pySlice (s : String) (a b : Nat) : String :=
  String.mk ((s.toList.drop a).take (b - a))

/-- Python string slice `s[a:]`. -/
def pyDropStr (s : String) (a : Nat) : String :=
  String.mk (s.toList.drop a)

/-- Python string slice `s[-n:]`: the last `n` characters, or the whole
string when it is shorter than `n`. -/
def pyLast (n : Nat) (s : String) : String :=
  String.mk (s.toList.drop (s.toList.length - n))

/-- One hexadecimal digit, as accepted by Python `int(_, 16)`. -/
def hexDigitVal (c : Char) : Option Nat :=
  if '0' ≤ c ∧ c ≤ '9' then some (c.toNat - '0'.toNat)
  else if 'a' ≤ c ∧ c ≤ 'f' then some (c.toNat - 'a'.toNat + 10)
  else if 'A' ≤ c ∧ c ≤ 'F' then some (c.toNat - 'A'.toNat + 10)
  else none

/-- Fold a list of hex digits into a number; `none` on any bad digit. -/
def hexFold : List Char → Nat → Option Nat
  | [], acc => some acc
  | c :: cs, acc =>
    match hexDigitVal c with
    | none => none
    | some d => hexFold cs (acc * 16 + d)

/-- Python `int(s, 16)` restricted to the shapes the code meets: an
optional `0x`/`0X` prefix followed by hex digits; `none` (an exception in
the source) on an empty or malformed string. -/
def parseHexInt : String → Option Nat
  | s =>
    let cs := s.toList
    let cs := match cs with
      | '0' :: 'x' :: rest => rest
      | '0' :: 'X' :: rest => rest
      | other => other
    match cs with
    | [] => none
    | _ => hexFold cs 0

/-- `ContractInteractor.get_relative_time`: bucket the elapsed seconds
`now - timestamp` (Python computes this through `datetime` subtraction;
modelled as integer difference) into a human-relative string.  Mirrors
the source exactly: the seconds bucket has no singular form, the other
buckets append `s` whenever the count differs from 1; Python `//` is
floor division, hence `Int.fdiv`. -/
def get_relative_time (now timestamp : Int) : String :=
  let total_seconds := now - timestamp
  if total_seconds < 60 then
    toString total_seconds ++ " seconds ago"
  else if total_seconds < 3600 then
    let minutes := Int.fdiv total_seconds 60
    toString minutes ++ " minute" ++ (if minutes != 1 then "s" else "") ++ " ago"
  else if total_seconds < 86400 then
    let hours := Int.fdiv total_seconds 3600
    toString hours ++ " hour" ++ (if hours != 1 then "s" else "") ++ " ago"
  else if total_seconds < 2592000 then
    let days := Int.fdiv total_seconds 86400
    toString days ++ " day" ++ (if days != 1 then "s" else "") ++ " ago"
  else
    let months := Int.fdiv total_seconds 2592000
    toString months ++ " month" ++ (if months != 1 then "s" else "") ++ " ago"

/-- A raw log entry as returned by `w3.eth.get_logs`, carrying the hex
renderings the code reads: `topics[i].hex()` and `data.hex()` are
`0x`-prefixed hex strings, `transactionHash.hex()` likewise. -/
structure RawLog where
  topics : List String
  dataHex : String
  blockNumber : Int
  transactionHash : String
deriving DecidableEq, Repr

/-- The fields `_decode_settlement_event` reads from `w3.eth.get_block`. -/
structure BlockInfo where
  timestamp : Int
  hashHex : String
deriving DecidableEq, Repr

/-- The field read from `w3.eth.get_transaction_receipt`. -/
structure Receipt where
  gasUsed : Int
deriving DecidableEq, Repr

/-- A certificate header returned by the AggLayer remote index, with the
keys `_enrich_settlement_with_certificate_data` reads via `.get` (a
missing key reads as `vnone`). -/
structure CertHeader where
  settlement_tx_hash : PyVal := .vnone
  height : PyVal := .vnone
  epoch_number : PyVal := .vnone
  certificate_index : PyVal := .vnone
  certificate_id : PyVal := .vnone
  prev_local_exit_root : PyVal := .vnone
  new_local_exit_root : PyVal := .vnone
deriving DecidableEq, Repr

/-- The remote AggLayer certificate index at `agg_layer_url`, one oracle
per JSON-RPC method used.  `call_agglayer_rpc` catches every transport or
RPC error and returns `None`, so each oracle yields `Option CertHeader`
and never raises. -/
structure RemoteIndex where
  latestSettled : Int → Option CertHeader
  latestKnown : Int → Option CertHeader
  certHeaderOf : PyVal → Option CertHeader

/-- The settlement dict built by `_decode_settlement_event` and enriched
by `_enrich_settlement_with_certificate_data`.  The four certificate
enrichment keys are absent (`none`) until the correlator adds them. -/
structure Settlement where
  block_number : Int
  transaction_hash : PyVal
  timestamp : Int
  datetime : String
  relative_time : String
  rollup_id : Int
  trusted_aggregator : String
  prev_pessimistic_root : String
  new_pessimistic_root : String
  prev_local_exit_root : String
  new_local_exit_root : String
  l1_info_root : String
  settlement_gas_used : PyVal
  settlement_block_hash : PyVal
  height : Option PyVal := none
  epoch_number : Option PyVal := none
  certificate_index : Option PyVal := none
  certificate_id : Option PyVal := none
deriving DecidableEq, Repr

/-- One outbound JSON-RPC request of the correlator, for call-trace
reasoning. -/
inductive RpcCall where
  | latestSettled : Int → RpcCall
  | latestKnown : Int → RpcCall
  | certHeader : PyVal → RpcCall
deriving DecidableEq, Repr

/-- One `get_logs` range query issued by the backward scanner (the fixed
address/topic filter is folded into the oracle). -/
structure Query where
  fromBlock : Int
  toBlock : Int
deriving DecidableEq, Repr

/-- The external world: chain oracles (which may raise: `Except.error`),
the remote index, the wall clock, and `datetime.strftime` as an opaque
formatter. -/
structure World where
  getLogs : Int → Int → Except Unit (List RawLog)
  getBlock : Int → Except Unit BlockInfo
  getReceipt : String → Except Unit Receipt
  idx : RemoteIndex
  now : Int
  strftime : Int → String

/-- Python `max(logs, key=lambda x: x.blockNumber)`: keeps the first
element, replacing it only on a strictly greater key, so ties resolve to
the earliest list position. -/
def pyMaxByBlock : RawLog → List RawLog → RawLog
  | best, [] => best
  | best, l :: ls =>
    pyMaxByBlock (if l.blockNumber > best.blockNumber then l else best) ls

/-- `ContractInteractor._decode_settlement_event`: decode one raw log into
a settlement dict, `none` when the surrounding `try/except` catches
(missing/malformed topic, or block fetch failure).  Data slicing uses
Python slice semantics and so never raises, whatever the data length.
The receipt fetch has its own inner `try/except`: on failure the gas and
block-hash fields stay `None`. -/
def decodeSettlementEvent (w : World) (log : RawLog) : Option Settlement :=
  match log.topics.get? 1 with
  | none => none
  | some t1 =>
    match parseHexInt t1 with
    | none => none
    | some rollup_id_from_log =>
      match log.topics.get? 2 with
      | none => none
      | some t2 =>
        let trusted_aggregator := "0x" ++ pyLast 40 t2
        let data := pyDropStr log.dataHex 2
        let prev_pessimistic_root := "0x" ++ pySlice data 0 64
        let new_pessimistic_root := "0x" ++ pySlice data 64 128
        let prev_local_exit_root := "0x" ++ pySlice data 128 192
        let new_local_exit_root := "0x" ++ pySlice data 192 256
        let l1_info_root := "0x" ++ pySlice data 256 320
        match w.getBlock log.blockNumber with
        | .error _ => none
        | .ok block =>
          let gasAndHash : PyVal × PyVal :=
            match w.getReceipt log.transactionHash with
            | .error _ => (.vnone, .vnone)
            | .ok tx_receipt => (.vint tx_receipt.gasUsed, .vstr block.hashHex)
          some {
            block_number := log.blockNumber
            transaction_hash := .vstr log.transactionHash
            timestamp := block.timestamp
            datetime := w.strftime block.timestamp
            relative_time := get_relative_time w.now block.timestamp
            rollup_id := Int.ofNat rollup_id_from_log
            trusted_aggregator := trusted_aggregator
            prev_pessimistic_root := prev_pessimistic_root
            new_pessimistic_root := new_pessimistic_root
            prev_local_exit_root := prev_local_exit_root
            new_local_exit_root := new_local_exit_root
            l1_info_root := l1_info_root
            settlement_gas_used := gasAndHash.1
            settlement_block_hash := gasAndHash.2 }

/-- The correlator's single fall-through update site: when no strategy
matched (or the inner `try` raised), all four enrichment keys are set to
the literal string `'N/A'`. -/
def updateNA (settlement : Settlement) : Settlement :=
  { settlement with
    height := some (.vstr "N/A")
    epoch_number := some (.vstr "N/A")
    certificate_index := some (.vstr "N/A")
    certificate_id := some (.vstr "N/A") }

/-- `ContractInteractor._enrich_settlement_with_certificate_data`, with
an instrumented trace of the outbound remote-index calls (second
component).  Mirrors the source: bail out unchanged when the settlement
has no truthy `transaction_hash`; strategy 1 matches the latest settled
certificate by settlement transaction hash; strategy 2 fetches the
latest known certificate's header and matches by both local exit roots;
every other path (including a `None` latest-settled answer, which the
source turns into a raise caught by its inner `except`) falls through to
the `'N/A'` sentinel update. -/
def enrichSettlementT (settlement : Settlement) (rollup_id : Int)
    (idx : RemoteIndex) : Settlement × List RpcCall :=
  let settlement_tx_hash := settlement.transaction_hash
  if ¬ settlement_tx_hash.truthy then (settlement, [])
  else
    match idx.latestSettled rollup_id with
    | none => (updateNA settlement, [.latestSettled rollup_id])
    | some latest_settled =>
      if latest_settled.settlement_tx_hash = settlement_tx_hash then
        ({ settlement with
            height := some latest_settled.height
            epoch_number := some latest_settled.epoch_number
            certificate_index := some latest_settled.certificate_index
            certificate_id := some latest_settled.certificate_id },
         [.latestSettled rollup_id])
      else
        match idx.latestKnown rollup_id with
        | none => (updateNA settlement,
                   [.latestSettled rollup_id, .latestKnown rollup_id])
        | some latest_known =>
          if latest_known.certificate_id.truthy then
            match idx.certHeaderOf latest_known.certificate_id with
            | none => (updateNA settlement,
                       [.latestSettled rollup_id, .latestKnown rollup_id,
                        .certHeader latest_known.certificate_id])
            | some cert_header =>
              if cert_header.prev_local_exit_root
                    = .vstr settlement.prev_local_exit_root
                  ∧ cert_header.new_local_exit_root
                    = .vstr settlement.new_local_exit_root then
                ({ settlement with
                    height := some cert_header.height
                    epoch_number := some cert_header.epoch_number
                    certificate_index := some cert_header.certificate_index
                    certificate_id := some cert_header.certificate_id },
                 [.latestSettled rollup_id, .latestKnown rollup_id,
                  .certHeader latest_known.certificate_id])
              else
                (updateNA settlement,
                 [.latestSettled rollup_id, .latestKnown rollup_id,
                  .certHeader latest_known.certificate_id])
          else
            (updateNA settlement,
             [.latestSettled rollup_id, .latestKnown rollup_id])

/-- The correlator's returned settlement (the call trace dropped). -/
def enrichSettlement (settlement : Settlement) (rollup_id : Int)
    (idx : RemoteIndex) : Settlement :=
  (enrichSettlementT settlement rollup_id idx).1

/-- Truthiness of the optional `agg_layer_url` argument. -/
def aggUrlTruthy : Option String → Bool
  | none => false
  | some s => !s.isEmpty

/-- The backward-scan loop of `get_previous_settlement_event`: while
`search_block > 0`, query the window
`[max 0 (search_block - 1000), search_block]`; on a non-empty answer take
the log with the maximum block number, decode it and (when an AggLayer
URL and a transaction hash are present) enrich it, returning it as a
singleton; a decode failure skips the whole chunk exactly like an empty
answer; then continue at `from_block - 1`.  The second component is the
trace of issued range queries; a raising `get_logs` propagates as
`Except.error` to the outer handler. -/
def scanLoop (w : World) (rollup_id : Int) (agg_layer_url : Option String)
    (search_block : Int) : Except Unit (List Settlement) × List Query :=
  if h : 0 < search_block then
    let from_block := max 0 (search_block - 1000)
    match w.getLogs from_block search_block with
    | .error e => (.error e, [⟨from_block, search_block⟩])
    | .ok logs =>
      match logs with
      | [] =>
        let rest := scanLoop w rollup_id agg_layer_url (from_block - 1)
        (rest.1, ⟨from_block, search_block⟩ :: rest.2)
      | l :: ls =>
        let latest_log := pyMaxByBlock l ls
        match decodeSettlementEvent w latest_log with
        | some settlement =>
          let enriched :=
            if aggUrlTruthy agg_layer_url && settlement.transaction_hash.truthy
            then enrichSettlement settlement rollup_id w.idx
            else settlement
          (.ok [enriched], [⟨from_block, search_block⟩])
        | none =>
          let rest := scanLoop w rollup_id agg_layer_url (from_block - 1)
          (rest.1, ⟨from_block, search_block⟩ :: rest.2)
  else (.ok [], [])
termination_by search_block.toNat
decreasing_by
  all_goals
    have h1 : (0 : Int) ≤ max 0 (search_block - 1000) := le_max_left _ _
    have h2 : max 0 (search_block - 1000) ≤ search_block :=
      max_le (le_of_lt h) (by omega)
    omega

/-- Body of `ContractInteractor.get_previous_settlement_event` up to its
outer `try/except`: the guard
`if not current_settlement_block or current_settlement_block <= 0`
short-circuits to an empty answer, otherwise the backward scan starts at
`current_settlement_block - 1`. -/
def gpseRun (w : World) (rollup_id : Int)
    (current_settlement_block : Option Int)
    (agg_layer_url : Option String) :
    Except Unit (List Settlement) × List Query :=
  match current_settlement_block with
  | none => (.ok [], [])
  | some c =>
    if c = 0 ∨ c ≤ 0 then (.ok [], [])
    else scanLoop w rollup_id agg_layer_url (c - 1)

/-- `ContractInteractor.get_previous_settlement_event`: the outer
`except` turns any escaped exception into an empty list. -/
def get_previous_settlement_event (w : World) (rollup_id : Int)
    (current_settlement_block : Option Int)
    (agg_layer_url : Option String) : List Settlement :=
  match (gpseRun w rollup_id current_settlement_block agg_layer_url).1 with
  | .ok res => res
  | .error _ => []

/-- The range queries `get_previous_settlement_event` issues. -/
def gpseQueries (w : World) (rollup_id : Int)
    (current_settlement_block : Option Int)
    (agg_layer_url : Option String) : List Query :=
  (gpseRun w rollup_id current_settlement_block agg_layer_url).2

lemma pyMaxByBlock_mem : ∀ (ls : List RawLog) (b : RawLog),
    pyMaxByBlock b ls ∈ b :: ls := by
  intro ls
  induction ls with
  | nil => intro b; simp [pyMaxByBlock]
  | cons l ls ih =>
    intro b
    rw [pyMaxByBlock]
    by_cases hc : l.blockNumber > b.blockNumber
    · rw [if_pos hc]
      exact List.mem_cons_of_mem b (ih l)
    · rw [if_neg hc]
      rcases List.mem_cons.mp (ih b) with h | h
      · rw [h]; exact List.mem_cons_self _ _
      · exact List.mem_cons_of_mem b (List.mem_cons_of_mem l h)

lemma pyMaxByBlock_base_le : ∀ (ls : List RawLog) (b : RawLog),
    b.blockNumber ≤ (pyMaxByBlock b ls).blockNumber := by
  intro ls
  induction ls with
  | nil => intro b; simp [pyMaxByBlock]
  | cons l ls ih =>
    intro b
    rw [pyMaxByBlock]
    by_cases hc : l.blockNumber > b.blockNumber
    · rw [if_pos hc]; exact le_trans (le_of_lt hc) (ih l)
    · rw [if_neg hc]; exact ih b

lemma pyMaxByBlock_le : ∀ (ls : List RawLog) (b : RawLog), ∀ x ∈ b :: ls,
    x.blockNumber ≤ (pyMaxByBlock b ls).blockNumber := by
  intro ls
  induction ls with
  | nil =>
    intro b x hx
    rcases List.mem_cons.mp hx with h | h
    · subst h; simp [pyMaxByBlock]
    · simp at h
  | cons l ls ih =>
    intro b x hx
    rw [pyMaxByBlock]
    rcases List.mem_cons.mp hx with h | h
    · subst h
      by_cases hc : l.blockNumber > x.blockNumber
      · rw [if_pos hc]
        exact le_trans (le_of_lt hc) (pyMaxByBlock_base_le ls l)
      · rw [if_neg hc]
        exact pyMaxByBlock_base_le ls x
    · rcases List.mem_cons.mp h with h2 | h2
      · subst h2
        by_cases hc : x.blockNumber > b.blockNumber
        · rw [if_pos hc]; exact pyMaxByBlock_base_le ls x
        · rw [if_neg hc]
          exact le_trans (not_lt.mp hc) (pyMaxByBlock_base_le ls b)
      · exact ih _ x (List.mem_cons_of_mem _ h2)

lemma decode_block_number {w : World} {log : RawLog} {s : Settlement}
    (h : decodeSettlementEvent w log = some s) :
    s.block_number = log.blockNumber := by
  unfold decodeSettlementEvent at h
  repeat' split at h
  all_goals simp_all
  all_goals (subst h; rfl)

lemma enrich_preserves (s : Settlement) (rid : Int) (idx : RemoteIndex) :
    (enrichSettlement s rid idx).block_number = s.block_number ∧
    (enrichSettlement s rid idx).transaction_hash = s.transaction_hash ∧
    (enrichSettlement s rid idx).timestamp = s.timestamp ∧
    (enrichSettlement s rid idx).datetime = s.datetime ∧
    (enrichSettlement s rid idx).relative_time = s.relative_time ∧
    (enrichSettlement s rid idx).rollup_id = s.rollup_id ∧
    (enrichSettlement s rid idx).trusted_aggregator = s.trusted_aggregator ∧
    (enrichSettlement s rid idx).prev_pessimistic_root = s.prev_pessimistic_root ∧
    (enrichSettlement s rid idx).new_pessimistic_root = s.new_pessimistic_root ∧
    (enrichSettlement s rid idx).prev_local_exit_root = s.prev_local_exit_root ∧
    (enrichSettlement s rid idx).new_local_exit_root = s.new_local_exit_root ∧
    (enrichSettlement s rid idx).l1_info_root = s.l1_info_root ∧
    (enrichSettlement s rid idx).settlement_gas_used = s.settlement_gas_used ∧
    (enrichSettlement s rid idx).settlement_block_hash = s.settlement_block_hash := by
  unfold enrichSettlement enrichSettlementT updateNA
  dsimp only
  by_cases htx : s.transaction_hash.truthy
  · simp only [htx]
    repeat' split
    all_goals simp
  · simp [htx]

lemma scanLoop_queries_sound (w : World) (rid : Int) (url : Option String) :
    ∀ sb : Int, ∀ q ∈ (scanLoop w rid url sb).2,
      0 ≤ q.fromBlock ∧ q.fromBlock ≤ q.toBlock ∧
      q.fromBlock = max 0 (q.toBlock - 1000) ∧ q.toBlock ≤ sb := by
  intro sb
  induction sb using scanLoop.induct w rid url with
  | case1 x hx fb e herr =>
    intro q hq
    rw [scanLoop.eq_def] at hq
    simp only [dif_pos hx, herr] at hq
    simp only [List.mem_singleton] at hq
    subst hq
    dsimp only
    exact ⟨le_max_left _ _, max_le (le_of_lt hx) (by omega), rfl, le_refl _⟩
  | case2 x hx fb hok ih =>
    intro q hq
    rw [scanLoop.eq_def] at hq
    simp only [dif_pos hx, hok] at hq
    rcases List.mem_cons.mp hq with h | h
    · subst h
      dsimp only
      exact ⟨le_max_left _ _, max_le (le_of_lt hx) (by omega), rfl, le_refl _⟩
    · obtain ⟨a, b, c, d⟩ := ih q h
      have hfb : (0 : Int) ⊔ (x - 1000) ≤ x := max_le (le_of_lt hx) (by omega)
      exact ⟨a, b, c, by omega⟩
  | case3 x hx fb l ls latest s hdec hok =>
    intro q hq
    rw [scanLoop.eq_def] at hq
    simp only [dif_pos hx, hok, hdec] at hq
    simp only [List.mem_singleton] at hq
    subst hq
    dsimp only
    exact ⟨le_max_left _ _, max_le (le_of_lt hx) (by omega), rfl, le_refl _⟩
  | case4 x hx fb l ls latest hdec hok ih =>
    intro q hq
    rw [scanLoop.eq_def] at hq
    simp only [dif_pos hx, hok, hdec] at hq
    rcases List.mem_cons.mp hq with h | h
    · subst h
      dsimp only
      exact ⟨le_max_left _ _, max_le (le_of_lt hx) (by omega), rfl, le_refl _⟩
    · obtain ⟨a, b, c, d⟩ := ih q h
      have hfb : (0 : Int) ⊔ (x - 1000) ≤ x := max_le (le_of_lt hx) (by omega)
      exact ⟨a, b, c, by omega⟩
  | case5 x hx =>
    intro q hq
    rw [scanLoop.eq_def] at hq
    simp only [dif_neg hx] at hq
    simp at hq

lemma scanLoop_queries_desc (w : World) (rid : Int) (url : Option String) :
    ∀ sb : Int,
      List.Chain' (fun a b => b.toBlock < a.toBlock) (scanLoop w rid url sb).2 := by
  intro sb
  induction sb using scanLoop.induct w rid url with
  | case1 x hx fb e herr =>
    rw [scanLoop.eq_def]
    simp only [dif_pos hx, herr]
    exact List.chain'_singleton _
  | case2 x hx fb hok ih =>
    rw [scanLoop.eq_def]
    simp only [dif_pos hx, hok]
    refine List.chain'_cons'.mpr ⟨?_, ih⟩
    intro b hb
    have hmem := List.mem_of_mem_head? hb
    have := (scanLoop_queries_sound w rid url ((0 ⊔ (x - 1000)) - 1) b hmem).2.2.2
    have hfb : (0 : Int) ⊔ (x - 1000) ≤ x := max_le (le_of_lt hx) (by omega)
    dsimp only
    omega
  | case3 x hx fb l ls latest s hdec hok =>
    rw [scanLoop.eq_def]
    simp only [dif_pos hx, hok, hdec]
    exact List.chain'_singleton _
  | case4 x hx fb l ls latest hdec hok ih =>
    rw [scanLoop.eq_def]
    simp only [dif_pos hx, hok, hdec]
    refine List.chain'_cons'.mpr ⟨?_, ih⟩
    intro b hb
    have hmem := List.mem_of_mem_head? hb
    have := (scanLoop_queries_sound w rid url ((0 ⊔ (x - 1000)) - 1) b hmem).2.2.2
    have hfb : (0 : Int) ⊔ (x - 1000) ≤ x := max_le (le_of_lt hx) (by omega)
    dsimp only
    omega
  | case5 x hx =>
    rw [scanLoop.eq_def]
    simp only [dif_neg hx]
    exact List.chain'_nil

lemma scanLoop_length_le_one (w : World) (rid : Int) (url : Option String) :
    ∀ sb : Int, ∀ l, (scanLoop w rid url sb).1 = .ok l → l.length ≤ 1 := by
  intro sb
  induction sb using scanLoop.induct w rid url with
  | case1 x hx fb e herr =>
    intro l hl
    rw [scanLoop.eq_def] at hl
    simp only [dif_pos hx, herr] at hl
    cases hl
  | case2 x hx fb hok ih =>
    intro l hl
    rw [scanLoop.eq_def] at hl
    simp only [dif_pos hx, hok] at hl
    exact ih l hl
  | case3 x hx fb l ls latest s hdec hok =>
    intro r hr
    rw [scanLoop.eq_def] at hr
    simp only [dif_pos hx, hok, hdec] at hr
    cases hr
    simp
  | case4 x hx fb l ls latest hdec hok ih =>
    intro r hr
    rw [scanLoop.eq_def] at hr
    simp only [dif_pos hx, hok, hdec] at hr
    exact ih r hr
  | case5 x hx =>
    intro l hl
    rw [scanLoop.eq_def] at hl
    simp only [dif_neg hx] at hl
    cases hl
    simp

lemma scanLoop_all_empty (w : World) (rid : Int) (url : Option String)
    (hw : ∀ f t, w.getLogs f t = .ok []) :
    ∀ sb : Int, (scanLoop w rid url sb).1 = .ok [] := by
  intro sb
  induction sb using scanLoop.induct w rid url with
  | case1 x hx fb e herr => rw [hw] at herr; cases herr
  | case2 x hx fb hok ih =>
    rw [scanLoop.eq_def]
    simp only [dif_pos hx, hok]
    exact ih
  | case3 x hx fb l ls latest s hdec hok => rw [hw] at hok; cases hok
  | case4 x hx fb l ls latest hdec hok ih => rw [hw] at hok; cases hok
  | case5 x hx =>
    rw [scanLoop.eq_def]
    simp only [dif_neg hx]

/-- The enriched-or-not settlement the scanner returns preserves the
decoded block number. -/
lemma scan_result_block_number (w : World) (rid : Int) (url : Option String)
    (s : Settlement) :
    (if aggUrlTruthy url && s.transaction_hash.truthy
     then enrichSettlement s rid w.idx else s).block_number = s.block_number := by
  by_cases hc : aggUrlTruthy url && s.transaction_hash.truthy
  · rw [if_pos hc]; exact (enrich_preserves s rid w.idx).1
  · rw [if_neg hc]

lemma scanLoop_finds_max (w : World) (chain : List RawLog) (rid : Int)
    (url : Option String) (cb : Int)
    (hlogs : ∀ f t, w.getLogs f t =
      .ok (chain.filter (fun e => decide (f ≤ e.blockNumber) && decide (e.blockNumber ≤ t))))
    (hdec : ∀ e ∈ chain, (decodeSettlementEvent w e).isSome = true) :
    ∀ sb : Int, sb < cb →
      (∀ e ∈ chain, e.blockNumber < cb → e.blockNumber ≤ sb) →
      ∀ l, (scanLoop w rid url sb).1 = .ok l →
        ∀ s ∈ l,
          (∃ e ∈ chain, e.blockNumber < cb ∧ s.block_number = e.blockNumber) ∧
          ∀ e ∈ chain, e.blockNumber < cb → e.blockNumber ≤ s.block_number := by
  intro sb
  induction sb using scanLoop.induct w rid url with
  | case1 x hx fb e herr =>
    intro hxcb hinv l hl
    rw [scanLoop.eq_def] at hl
    simp only [dif_pos hx, herr] at hl
    cases hl
  | case2 x hx fb hok ih =>
    intro hxcb hinv l hl
    rw [scanLoop.eq_def] at hl
    simp only [dif_pos hx, hok] at hl
    rw [hlogs] at hok
    injection hok with hok
    have hnone : ∀ e ∈ chain, ¬((0 ⊔ (x - 1000)) ≤ e.blockNumber ∧ e.blockNumber ≤ x) := by
      intro e he hcontra
      have hmf : e ∈ chain.filter
          (fun e => decide ((0 ⊔ (x - 1000)) ≤ e.blockNumber) && decide (e.blockNumber ≤ x)) := by
        rw [List.mem_filter]
        exact ⟨he, by simp [hcontra.1, hcontra.2]⟩
      rw [hok] at hmf
      simp at hmf
    refine ih ?_ ?_ l hl
    · omega
    · intro e he hecb
      have h1 := hinv e he hecb
      have h2 := hnone e he
      omega
  | case3 x hx fb l ls latest s hdecs hok =>
    intro hxcb hinv r hr
    rw [scanLoop.eq_def] at hr
    simp only [dif_pos hx, hok, hdecs] at hr
    cases hr
    intro t ht
    rcases List.mem_singleton.mp ht with rfl
    rw [hlogs] at hok
    injection hok with hok
    have hlatest_mem : pyMaxByBlock l ls ∈ l :: ls := pyMaxByBlock_mem ls l
    rw [← hok] at hlatest_mem
    rw [List.mem_filter] at hlatest_mem
    obtain ⟨hmem_chain, hrange⟩ := hlatest_mem
    simp only [Bool.and_eq_true, decide_eq_true_eq] at hrange
    have hbn : s.block_number = (pyMaxByBlock l ls).blockNumber := decode_block_number hdecs
    constructor
    · refine ⟨pyMaxByBlock l ls, hmem_chain, by omega, ?_⟩
      rw [scan_result_block_number]
      exact hbn
    · intro e he hecb
      rw [scan_result_block_number, hbn]
      have hex : e.blockNumber ≤ x := hinv e he hecb
      by_cases hef : (0 ⊔ (x - 1000)) ≤ e.blockNumber
      · have hmf : e ∈ chain.filter
            (fun e => decide ((0 ⊔ (x - 1000)) ≤ e.blockNumber) && decide (e.blockNumber ≤ x)) := by
          rw [List.mem_filter]
          exact ⟨he, by simp [hef, hex]⟩
        rw [hok] at hmf
        exact pyMaxByBlock_le ls l e hmf
      · have := hrange.1
        omega
  | case4 x hx fb l ls latest hdecn hok ih =>
    intro hxcb hinv r hr
    exfalso
    rw [hlogs] at hok
    injection hok with hok
    have hlatest_mem : pyMaxByBlock l ls ∈ l :: ls := pyMaxByBlock_mem ls l
    rw [← hok] at hlatest_mem
    rw [List.mem_filter] at hlatest_mem
    have := hdec _ hlatest_mem.1
    rw [hdecn] at this
    cases this
  | case5 x hx =>
    intro hxcb hinv l hl
    rw [scanLoop.eq_def] at hl
    simp only [dif_neg hx] at hl
    cases hl
    intro s hs
    simp at hs

lemma gpseRun_length_le_one (w : World) (rid : Int) (cb : Option Int)
    (url : Option String) :
    ∀ l, (gpseRun w rid cb url).1 = .ok l → l.length ≤ 1 := by
  unfold gpseRun
  cases cb with
  | none => intro l hl; cases hl; simp
  | some c =>
    dsimp only
    by_cases hc : c = 0 ∨ c ≤ 0
    · rw [if_pos hc]; intro l hl; cases hl; simp
    · rw [if_neg hc]; exact scanLoop_length_le_one w rid url (c - 1)

/-- Remote index that answers nothing (every call fails or finds no
certificate). -/
def noneIdx : RemoteIndex :=
  { latestSettled := fun _ => none
    latestKnown := fun _ => none
    certHeaderOf := fun _ => none }

/-- World whose chain calls all raise. -/
def errW : World :=
  { getLogs := fun _ _ => .error ()
    getBlock := fun _ => .error ()
    getReceipt := fun _ => .error ()
    idx := noneIdx
    now := 0
    strftime := fun _ => "" }

/-- World whose log source always answers an empty list. -/
def emptyW : World :=
  { getLogs := fun _ _ => .ok []
    getBlock := fun _ => .error ()
    getReceipt := fun _ => .error ()
    idx := noneIdx
    now := 0
    strftime := fun _ => "" }

/-- A decoded settlement record, used as concrete correlator input. -/
def sampleSettlement : Settlement :=
  { block_number := 3
    transaction_hash := .vstr "0xabc"
    timestamp := 0
    datetime := ""
    relative_time := ""
    rollup_id := 1
    trusted_aggregator := "0x"
    prev_pessimistic_root := "0x"
    new_pessimistic_root := "0x"
    prev_local_exit_root := "0xaa"
    new_local_exit_root := "0xbb"
    l1_info_root := "0x"
    settlement_gas_used := .vnone
    settlement_block_hash := .vnone }

/-- C6: when `current_settlement_block` is absent, zero or negative,
`get_previous_settlement_event` returns an empty list and issues no log
fetch. -/
theorem scanner_invalid_block_short_circuits (w : World) (rid : Int)
    (url : Option String) (cb : Option Int)
    (h : cb = none ∨ ∃ c, cb = some c ∧ c ≤ 0) :
    get_previous_settlement_event w rid cb url = [] ∧
    gpseQueries w rid cb url = [] := by
  rcases h with rfl | ⟨c, rfl, hc⟩
  · exact ⟨rfl, rfl⟩
  · unfold get_previous_settlement_event gpseQueries gpseRun
    dsimp only
    rw [if_pos (Or.inr hc)]
    exact ⟨rfl, rfl⟩

/-- Witness for C6 at `current_settlement_block = 0`. -/
theorem scanner_invalid_block_short_circuits_witness :
    get_previous_settlement_event errW 2 (some 0) none = [] ∧
    gpseQueries errW 2 (some 0) none = [] :=
  scanner_invalid_block_short_circuits errW 2 none (some 0)
    (Or.inr ⟨0, rfl, le_refl 0⟩)

/-- C7: for a positive current settlement block every issued range query
satisfies `0 ≤ fromBlock ≤ toBlock` with
`fromBlock = max 0 (toBlock - 1000)`, the queried upper bounds strictly
decrease (so the backward scan terminates), and when every chunk is
empty the scan ends at block 0 with an empty result. -/
theorem scanner_termination_discipline (w : World) (rid c : Int)
    (url : Option String) (hc : 0 < c) :
    (∀ q ∈ gpseQueries w rid (some c) url,
        0 ≤ q.fromBlock ∧ q.fromBlock ≤ q.toBlock ∧
        q.fromBlock = max 0 (q.toBlock - 1000)) ∧
    List.Chain' (fun a b => b.toBlock < a.toBlock)
      (gpseQueries w rid (some c) url) ∧
    ((∀ f t, w.getLogs f t = .ok []) →
        get_previous_settlement_event w rid (some c) url = []) := by
  unfold gpseQueries get_previous_settlement_event gpseRun
  dsimp only
  rw [if_neg (by omega : ¬(c = 0 ∨ c ≤ 0))]
  refine ⟨?_, ?_, ?_⟩
  · intro q hq
    obtain ⟨a, b, c', _⟩ := scanLoop_queries_sound w rid url (c - 1) q hq
    exact ⟨a, b, c'⟩
  · exact scanLoop_queries_desc w rid url (c - 1)
  · intro hw
    rw [scanLoop_all_empty w rid url hw (c - 1)]

/-- Witness for C7: with an always-empty log source and
`current_settlement_block = 2500` the scan walks down to block 0 and
returns the empty list. -/
theorem scanner_termination_discipline_witness :
    get_previous_settlement_event emptyW 1 (some 2500) none = [] :=
  (scanner_termination_discipline emptyW 1 2500 none (by norm_num)).2.2
    (fun _ _ => rfl)

/-- C5: the correlation engine returns normally for every behaviour of
the external services: the scanner always yields a list of length at
most one, any exception escaping the scan body is caught and turned into
the empty list, and when the remote index fails the correlator still
returns the settlement, with all four enrichment fields set to the
`'N/A'` sentinel. -/
theorem correlation_engine_never_raises (w : World) (rid : Int)
    (cb : Option Int) (url : Option String) :
    (get_previous_settlement_event w rid cb url).length ≤ 1 ∧
    (∀ e, (gpseRun w rid cb url).1 = .error e →
        get_previous_settlement_event w rid cb url = []) ∧
    (∀ s r, s.transaction_hash.truthy = true →
        w.idx.latestSettled r = none →
        enrichSettlement s r w.idx = updateNA s) := by
  refine ⟨?_, ?_, ?_⟩
  · unfold get_previous_settlement_event
    cases hres : (gpseRun w rid cb url).1 with
    | error e => simp
    | ok l =>
      simpa using gpseRun_length_le_one w rid cb url l hres
  · intro e he
    unfold get_previous_settlement_event
    rw [he]
  · intro s r htx hnone
    unfold enrichSettlement enrichSettlementT
    rw [if_neg (not_not_intro htx), hnone]

/-- Witness for C5: a world whose log source raises still yields an empty
list, and a failing remote index yields the `'N/A'` sentinel. -/
theorem correlation_engine_never_raises_witness :
    get_previous_settlement_event errW 1 (some 10) none = [] ∧
    enrichSettlement sampleSettlement 1 errW.idx = updateNA sampleSettlement :=
  ⟨(correlation_engine_never_raises errW 1 (some 10) none).2.1 ()
      (by
        show (scanLoop errW 1 none 9).1 = .error ()
        rw [scanLoop.eq_def]
        rfl),
   (correlation_engine_never_raises errW 1 (some 10) none).2.2
      sampleSettlement 1 (by decide) rfl⟩

/-- A chain with a single matching settlement event at block 3.  The
data section is irrelevant to the scan. -/
def c1Log : RawLog :=
  { topics := ["0xdf47e7db",
      "0x0000000000000000000000000000000000000000000000000000000000000005",
      "0x000000000000000000000000aabbccddeeff00112233445566778899aabbccdd"]
    dataHex := "0x"
    blockNumber := 3
    transactionHash := "0xabc" }

def c1Chain : List RawLog := [c1Log]

/-- World serving exactly `c1Chain` through a well-formed range filter. -/
def c1World : World :=
  { getLogs := fun f t => .ok (c1Chain.filter
      (fun e => decide (f ≤ e.blockNumber) && decide (e.blockNumber ≤ t)))
    getBlock := fun _ => .ok { timestamp := 100, hashHex := "0xbh" }
    getReceipt := fun _ => .ok { gasUsed := 77 }
    idx := noneIdx
    now := 145
    strftime := fun _ => "t" }

/-- C1: for every rollup id and positive current settlement block,
against a well-formed log source over a fixed chain of matching events
all of which decode, the backward scanner returns at most one
settlement, and any returned settlement sits at the highest block number
strictly below the current settlement block among all matching events on
the chain. -/
theorem scanner_returns_nearest_prior (w : World) (chain : List RawLog)
    (rid cb : Int) (url : Option String)
    (hcb : 0 < cb)
    (hlogs : ∀ f t, w.getLogs f t = .ok (chain.filter
      (fun e => decide (f ≤ e.blockNumber) && decide (e.blockNumber ≤ t))))
    (hdec : ∀ e ∈ chain, (decodeSettlementEvent w e).isSome = true) :
    (get_previous_settlement_event w rid (some cb) url).length ≤ 1 ∧
    ∀ s ∈ get_previous_settlement_event w rid (some cb) url,
      (∃ e ∈ chain, e.blockNumber < cb ∧ s.block_number = e.blockNumber) ∧
      ∀ e ∈ chain, e.blockNumber < cb → e.blockNumber ≤ s.block_number := by
  unfold get_previous_settlement_event gpseRun
  dsimp only
  rw [if_neg (by omega : ¬(cb = 0 ∨ cb ≤ 0))]
  cases hres : (scanLoop w rid url (cb - 1)).1 with
  | error e => simp
  | ok l =>
    constructor
    · simpa using scanLoop_length_le_one w rid url (cb - 1) l hres
    · simpa using scanLoop_finds_max w chain rid url cb hlogs hdec (cb - 1)
        (by omega) (fun e he hecb => by omega) l hres

/-- Witness for C1: a one-event chain at block 3 scanned from block 5. -/
theorem scanner_returns_nearest_prior_witness :
    (0 : Int) < 5 ∧
    (get_previous_settlement_event c1World 7 (some 5) none).length ≤ 1 :=
  ⟨by norm_num,
   (scanner_returns_nearest_prior c1World c1Chain 7 5 none (by norm_num)
      (fun _ _ => rfl)
      (by
        intro e he
        simp only [c1Chain, List.mem_singleton] at he
        subst he
        decide)).1⟩

lemma pySlice_length (s : String) (a b : Nat) :
    (pySlice s a b).length = min (b - a) (s.length - a) := by
  unfold pySlice
  rw [show (String.mk ((s.toList.drop a).take (b - a))).length
        = ((s.toList.drop a).take (b - a)).length from rfl]
  rw [List.length_take, List.length_drop]
  rfl

lemma pyDropStr_length (s : String) (a : Nat) :
    (pyDropStr s a).length = s.length - a := by
  unfold pyDropStr
  rw [show (String.mk (s.toList.drop a)).length = (s.toList.drop a).length from rfl]
  rw [List.length_drop]
  rfl

/-- World that decodes successfully: block fetch answers, receipt fetch
raises (exercising the inner receipt `try/except`). -/
def decodeOkW : World :=
  { getLogs := fun _ _ => .ok []
    getBlock := fun _ => .ok { timestamp := 50, hashHex := "0xh" }
    getReceipt := fun _ => .error ()
    idx := noneIdx
    now := 60
    strftime := fun _ => "d" }

/-- A raw log with well-formed topics but an empty data section (0 bytes,
far below the 160-byte event payload). -/
def shortDataLog : RawLog :=
  { topics := ["0xdf47", "0x07", "0xffee"]
    dataHex := "0x"
    blockNumber := 4
    transactionHash := "0xtx" }

/-- C2 counterexample: a log whose data section is shorter than 160 bytes
(here 0 bytes) decodes successfully — Python slicing silently truncates —
yielding a record whose root fields are bare `0x` stumps rather than
failing with a `DecodeError`. -/
theorem decode_short_data_counterexample :
    shortDataLog.dataHex = "0x" ∧
    (decodeSettlementEvent decodeOkW shortDataLog).isSome = true ∧
    Option.map (fun s => s.l1_info_root)
      (decodeSettlementEvent decodeOkW shortDataLog) = some "0x" ∧
    Option.map (fun s => s.prev_pessimistic_root)
      (decodeSettlementEvent decodeOkW shortDataLog) = some "0x" := by decide

/-- C2 amended: decoding a payload shorter than 160 bytes does not fail;
whenever the topics parse and the block fetch succeeds the decoder
returns a record whose root fields are the truncated fixed-offset
slices, the last root shorter than a full 32-byte (64 hex character)
word.  Decoding fails only on a missing or malformed topic or a failed
block fetch. -/
theorem decode_short_data_truncates (w : World) (log : RawLog)
    (t1 t2 : String) (n : Nat) (blk : BlockInfo)
    (h1 : log.topics.get? 1 = some t1) (hp : parseHexInt t1 = some n)
    (h2 : log.topics.get? 2 = some t2)
    (hb : w.getBlock log.blockNumber = .ok blk)
    (hshort : log.dataHex.length < 322) :
    ∃ s, decodeSettlementEvent w log = some s ∧
      s.prev_pessimistic_root = "0x" ++ pySlice (pyDropStr log.dataHex 2) 0 64 ∧
      s.l1_info_root = "0x" ++ pySlice (pyDropStr log.dataHex 2) 256 320 ∧
      s.l1_info_root.length < 66 := by
  have hlen : ("0x" ++ pySlice (pyDropStr log.dataHex 2) 256 320).length < 66 := by
    rw [String.length_append, pySlice_length, pyDropStr_length]
    have h2x : ("0x" : String).length = 2 := rfl
    omega
  unfold decodeSettlementEvent
  simp only [h1, hp, h2, hb]
  cases hr : w.getReceipt log.transactionHash with
  | error e => exact ⟨_, rfl, rfl, rfl, hlen⟩
  | ok rc => exact ⟨_, rfl, rfl, rfl, hlen⟩

/-- Witness for the amended C2 at the concrete empty-data log. -/
theorem decode_short_data_truncates_witness :
    shortDataLog.dataHex.length < 322 ∧
    ∃ s, decodeSettlementEvent decodeOkW shortDataLog = some s ∧
      s.prev_pessimistic_root = "0x" ++ pySlice (pyDropStr shortDataLog.dataHex 2) 0 64 ∧
      s.l1_info_root = "0x" ++ pySlice (pyDropStr shortDataLog.dataHex 2) 256 320 ∧
      s.l1_info_root.length < 66 :=
  ⟨by decide,
   decode_short_data_truncates decodeOkW shortDataLog "0x07" "0xffee" 7
     { timestamp := 50, hashHex := "0xh" } rfl (by decide) rfl rfl (by decide)⟩

/-- C3: for every settlement record carrying a transaction hash and every
remote-index state, the correlator's four enrichment fields are either
all adopted from one single certificate header (found by strategy 1 or
strategy 2) or all set to the `'N/A'` not-found sentinel — never a
partial mix. -/
theorem enrich_all_or_one_cert (s : Settlement) (rid : Int)
    (idx : RemoteIndex) (htx : s.transaction_hash.truthy = true) :
    (∃ c : CertHeader,
      (idx.latestSettled rid = some c ∨
       ∃ lk, idx.latestKnown rid = some lk ∧
         idx.certHeaderOf lk.certificate_id = some c) ∧
      (enrichSettlement s rid idx).height = some c.height ∧
      (enrichSettlement s rid idx).epoch_number = some c.epoch_number ∧
      (enrichSettlement s rid idx).certificate_index = some c.certificate_index ∧
      (enrichSettlement s rid idx).certificate_id = some c.certificate_id) ∨
    ((enrichSettlement s rid idx).height = some (PyVal.vstr "N/A") ∧
     (enrichSettlement s rid idx).epoch_number = some (PyVal.vstr "N/A") ∧
     (enrichSettlement s rid idx).certificate_index = some (PyVal.vstr "N/A") ∧
     (enrichSettlement s rid idx).certificate_id = some (PyVal.vstr "N/A")) := by
  unfold enrichSettlement enrichSettlementT
  rw [if_neg (not_not_intro htx)]
  cases hls : idx.latestSettled rid with
  | none => right; exact ⟨rfl, rfl, rfl, rfl⟩
  | some ls =>
    dsimp only
    by_cases hm : ls.settlement_tx_hash = s.transaction_hash
    · rw [if_pos hm]
      left
      exact ⟨ls, Or.inl rfl, rfl, rfl, rfl, rfl⟩
    · rw [if_neg hm]
      cases hlk : idx.latestKnown rid with
      | none => right; exact ⟨rfl, rfl, rfl, rfl⟩
      | some lk =>
        dsimp only
        by_cases hid : lk.certificate_id.truthy = true
        · rw [if_pos hid]
          cases hch : idx.certHeaderOf lk.certificate_id with
          | none => right; exact ⟨rfl, rfl, rfl, rfl⟩
          | some ch =>
            dsimp only
            by_cases hroots : ch.prev_local_exit_root
                  = .vstr s.prev_local_exit_root
                ∧ ch.new_local_exit_root = .vstr s.new_local_exit_root
            · rw [if_pos hroots]
              left
              exact ⟨ch, Or.inr ⟨lk, rfl, hch⟩, rfl, rfl, rfl, rfl⟩
            · rw [if_neg hroots]
              right
              exact ⟨rfl, rfl, rfl, rfl⟩
        · rw [if_neg hid]
          right
          exact ⟨rfl, rfl, rfl, rfl⟩

/-- Witness for C3 at a concrete settlement and an empty remote index
(the sentinel branch). -/
theorem enrich_all_or_one_cert_witness :
    sampleSettlement.transaction_hash.truthy = true ∧
    ((∃ c : CertHeader,
      (noneIdx.latestSettled 1 = some c ∨
       ∃ lk, noneIdx.latestKnown 1 = some lk ∧
         noneIdx.certHeaderOf lk.certificate_id = some c) ∧
      (enrichSettlement sampleSettlement 1 noneIdx).height = some c.height ∧
      (enrichSettlement sampleSettlement 1 noneIdx).epoch_number = some c.epoch_number ∧
      (enrichSettlement sampleSettlement 1 noneIdx).certificate_index = some c.certificate_index ∧
      (enrichSettlement sampleSettlement 1 noneIdx).certificate_id = some c.certificate_id) ∨
    ((enrichSettlement sampleSettlement 1 noneIdx).height = some (PyVal.vstr "N/A") ∧
     (enrichSettlement sampleSettlement 1 noneIdx).epoch_number = some (PyVal.vstr "N/A") ∧
     (enrichSettlement sampleSettlement 1 noneIdx).certificate_index = some (PyVal.vstr "N/A") ∧
     (enrichSettlement sampleSettlement 1 noneIdx).certificate_id = some (PyVal.vstr "N/A"))) :=
  ⟨by decide, enrich_all_or_one_cert sampleSettlement 1 noneIdx (by decide)⟩

/-- C4: when the remote index's latest settled certificate carries the
settlement's transaction hash, the correlator adopts that certificate's
height/epoch/index/id via strategy 1 and its call trace is the single
latest-settled fetch — it never issues the latest-known or
certificate-header calls of strategy 2. -/
theorem enrich_strategy1_fast_path (s : Settlement) (rid : Int)
    (idx : RemoteIndex) (ls : CertHeader)
    (htx : s.transaction_hash.truthy = true)
    (hls : idx.latestSettled rid = some ls)
    (hmatch : ls.settlement_tx_hash = s.transaction_hash) :
    enrichSettlementT s rid idx =
      ({ s with
          height := some ls.height
          epoch_number := some ls.epoch_number
          certificate_index := some ls.certificate_index
          certificate_id := some ls.certificate_id },
       [RpcCall.latestSettled rid]) := by
  unfold enrichSettlementT
  rw [if_neg (not_not_intro htx), hls]
  dsimp only
  rw [if_pos hmatch]

/-- The latest settled certificate used by the C4 witness. -/
def matchCert : CertHeader :=
  { settlement_tx_hash := .vstr "0xabc"
    height := .vint 7
    epoch_number := .vint 1
    certificate_index := .vint 0
    certificate_id := .vstr "0xcid" }

/-- Remote index whose latest settled certificate matches
`sampleSettlement`. -/
def strat1Idx : RemoteIndex :=
  { latestSettled := fun _ => some matchCert
    latestKnown := fun _ => none
    certHeaderOf := fun _ => none }

/-- Witness for C4 at the matching certificate. -/
theorem enrich_strategy1_fast_path_witness :
    enrichSettlementT sampleSettlement 1 strat1Idx =
      ({ sampleSettlement with
          height := some (.vint 7)
          epoch_number := some (.vint 1)
          certificate_index := some (.vint 0)
          certificate_id := some (.vstr "0xcid") },
       [RpcCall.latestSettled 1]) :=
  enrich_strategy1_fast_path sampleSettlement 1 strat1Idx matchCert
    (by decide) rfl rfl

/-- C9: the correlator is deterministic and idempotent: running it again
on its own output (the source mutates the settlement dict in place, so a
second call with `identical inputs` sees the enriched dict) against the
same remote index reproduces the same settlement and the same call
trace. -/
theorem enrich_idempotent (s : Settlement) (rid : Int) (idx : RemoteIndex) :
    enrichSettlementT (enrichSettlementT s rid idx).1 rid idx
      = enrichSettlementT s rid idx := by
  by_cases htx : s.transaction_hash.truthy = true
  · cases hls : idx.latestSettled rid with
    | none =>
      have h1 : enrichSettlementT s rid idx
          = (updateNA s, [.latestSettled rid]) := by
        unfold enrichSettlementT
        rw [if_neg (not_not_intro htx), hls]
      rw [h1]
      dsimp only [updateNA]
      unfold enrichSettlementT
      dsimp only
      rw [if_neg (not_not_intro htx), hls]
      rfl
    | some ls =>
      by_cases hm : ls.settlement_tx_hash = s.transaction_hash
      · have h1 : enrichSettlementT s rid idx
            = ({ s with
                  height := some ls.height
                  epoch_number := some ls.epoch_number
                  certificate_index := some ls.certificate_index
                  certificate_id := some ls.certificate_id },
               [.latestSettled rid]) := by
          unfold enrichSettlementT
          rw [if_neg (not_not_intro htx), hls]
          dsimp only
          rw [if_pos hm]
        rw [h1]
        dsimp only
        unfold enrichSettlementT
        dsimp only
        rw [if_neg (not_not_intro htx), hls]
        dsimp only
        rw [if_pos hm]
      · cases hlk : idx.latestKnown rid with
        | none =>
          have h1 : enrichSettlementT s rid idx
              = (updateNA s, [.latestSettled rid, .latestKnown rid]) := by
            unfold enrichSettlementT
            rw [if_neg (not_not_intro htx), hls]
            dsimp only
            rw [if_neg hm, hlk]
          rw [h1]
          dsimp only [updateNA]
          unfold enrichSettlementT
          dsimp only
          rw [if_neg (not_not_intro htx), hls]
          dsimp only
          rw [if_neg hm, hlk]
          rfl
        | some lk =>
          by_cases hid : lk.certificate_id.truthy = true
          · cases hch : idx.certHeaderOf lk.certificate_id with
            | none =>
              have h1 : enrichSettlementT s rid idx
                  = (updateNA s, [.latestSettled rid, .latestKnown rid,
                      .certHeader lk.certificate_id]) := by
                unfold enrichSettlementT
                rw [if_neg (not_not_intro htx), hls]
                dsimp only
                rw [if_neg hm, hlk]
                dsimp only
                rw [if_pos hid, hch]
              rw [h1]
              dsimp only [updateNA]
              unfold enrichSettlementT
              dsimp only
              rw [if_neg (not_not_intro htx), hls]
              dsimp only
              rw [if_neg hm, hlk]
              dsimp only
              rw [if_pos hid, hch]
              rfl
            | some ch =>
              by_cases hroots : ch.prev_local_exit_root
                    = .vstr s.prev_local_exit_root
                  ∧ ch.new_local_exit_root = .vstr s.new_local_exit_root
              · have h1 : enrichSettlementT s rid idx
                    = ({ s with
                          height := some ch.height
                          epoch_number := some ch.epoch_number
                          certificate_index := some ch.certificate_index
                          certificate_id := some ch.certificate_id },
                       [.latestSettled rid, .latestKnown rid,
                        .certHeader lk.certificate_id]) := by
                  unfold enrichSettlementT
                  rw [if_neg (not_not_intro htx), hls]
                  dsimp only
                  rw [if_neg hm, hlk]
                  dsimp only
                  rw [if_pos hid, hch]
                  dsimp only
                  rw [if_pos hroots]
                rw [h1]
                dsimp only
                unfold enrichSettlementT
                dsimp only
                rw [if_neg (not_not_intro htx), hls]
                dsimp only
                rw [if_neg hm, hlk]
                dsimp only
                rw [if_pos hid, hch]
                dsimp only
                rw [if_pos hroots]
              · have h1 : enrichSettlementT s rid idx
                    = (updateNA s, [.latestSettled rid, .latestKnown rid,
                        .certHeader lk.certificate_id]) := by
                  unfold enrichSettlementT
                  rw [if_neg (not_not_intro htx), hls]
                  dsimp only
                  rw [if_neg hm, hlk]
                  dsimp only
                  rw [if_pos hid, hch]
                  dsimp only
                  rw [if_neg hroots]
                rw [h1]
                dsimp only [updateNA]
                unfold enrichSettlementT
                dsimp only
                rw [if_neg (not_not_intro htx), hls]
                dsimp only
                rw [if_neg hm, hlk]
                dsimp only
                rw [if_pos hid, hch]
                dsimp only
                rw [if_neg hroots]
                rfl
          · have h1 : enrichSettlementT s rid idx
                = (updateNA s, [.latestSettled rid, .latestKnown rid]) := by
              unfold enrichSettlementT
              rw [if_neg (not_not_intro htx), hls]
              dsimp only
              rw [if_neg hm, hlk]
              dsimp only
              rw [if_neg hid]
            rw [h1]
            dsimp only [updateNA]
            unfold enrichSettlementT
            dsimp only
            rw [if_neg (not_not_intro htx), hls]
            dsimp only
            rw [if_neg hm, hlk]
            dsimp only
            rw [if_neg hid]
            rfl
  · have h1 : enrichSettlementT s rid idx = (s, []) := by
      unfold enrichSettlementT
      rw [if_pos htx]
    rw [h1]
    dsimp only
    rw [h1]

/-- C10: correlation never removes or alters the settlement's own decoded
fields — every field except the four enrichment keys maps to its input
value, on every path including the sentinel paths. -/
theorem enrich_frame_condition (s : Settlement) (rid : Int)
    (idx : RemoteIndex) :
    (enrichSettlement s rid idx).block_number = s.block_number ∧
    (enrichSettlement s rid idx).transaction_hash = s.transaction_hash ∧
    (enrichSettlement s rid idx).timestamp = s.timestamp ∧
    (enrichSettlement s rid idx).datetime = s.datetime ∧
    (enrichSettlement s rid idx).relative_time = s.relative_time ∧
    (enrichSettlement s rid idx).rollup_id = s.rollup_id ∧
    (enrichSettlement s rid idx).trusted_aggregator = s.trusted_aggregator ∧
    (enrichSettlement s rid idx).prev_pessimistic_root = s.prev_pessimistic_root ∧
    (enrichSettlement s rid idx).new_pessimistic_root = s.new_pessimistic_root ∧
    (enrichSettlement s rid idx).prev_local_exit_root = s.prev_local_exit_root ∧
    (enrichSettlement s rid idx).new_local_exit_root = s.new_local_exit_root ∧
    (enrichSettlement s rid idx).l1_info_root = s.l1_info_root ∧
    (enrichSettlement s rid idx).settlement_gas_used = s.settlement_gas_used ∧
    (enrichSettlement s rid idx).settlement_block_hash = s.settlement_block_hash :=
  enrich_preserves s rid idx

/-- C8 counterexample: at an elapsed time of exactly one second the
formatter still uses the plural `seconds` — the seconds bucket has no
singular form. -/
theorem relative_time_one_second_plural :
    get_relative_time 1 0 = "1 seconds ago" ∧
    get_relative_time 1 0 ≠ "1 second ago" := by decide

/-- C8 amended: elapsed seconds are bucketed by floor division at
thresholds 60/3600/86400/2592000 with a fixed 30-day month; the
minute/hour/day/month buckets use the singular suffix exactly when the
displayed count is 1, while the seconds bucket always uses the plural
`seconds`; the spec's four examples hold. -/
theorem relative_time_bucketing :
    (∀ now ts : Int, 0 ≤ now - ts → now - ts < 60 →
        get_relative_time now ts = toString (now - ts) ++ " seconds ago") ∧
    (∀ now ts : Int, 60 ≤ now - ts → now - ts < 3600 →
        get_relative_time now ts =
          toString ((now - ts).fdiv 60) ++ " minute" ++
            (if (now - ts).fdiv 60 = 1 then "" else "s") ++ " ago") ∧
    (∀ now ts : Int, 3600 ≤ now - ts → now - ts < 86400 →
        get_relative_time now ts =
          toString ((now - ts).fdiv 3600) ++ " hour" ++
            (if (now - ts).fdiv 3600 = 1 then "" else "s") ++ " ago") ∧
    (∀ now ts : Int, 86400 ≤ now - ts → now - ts < 2592000 →
        get_relative_time now ts =
          toString ((now - ts).fdiv 86400) ++ " day" ++
            (if (now - ts).fdiv 86400 = 1 then "" else "s") ++ " ago") ∧
    (∀ now ts : Int, 2592000 ≤ now - ts →
        get_relative_time now ts =
          toString ((now - ts).fdiv 2592000) ++ " month" ++
            (if (now - ts).fdiv 2592000 = 1 then "" else "s") ++ " ago") ∧
    (∀ n : Int, get_relative_time n (n - 45) = "45 seconds ago") ∧
    (∀ n : Int, get_relative_time n (n - 90) = "1 minute ago") ∧
    (∀ n : Int, get_relative_time n (n - 7200) = "2 hours ago") ∧
    (∀ n : Int, get_relative_time n (n - 172800) = "2 days ago") := by
  refine ⟨?_, ?_, ?_, ?_, ?_, ?_, ?_, ?_, ?_⟩
  · intro now ts h1 h2
    simp only [get_relative_time]
    rw [if_pos h2]
  · intro now ts h1 h2
    simp only [get_relative_time]
    rw [if_neg (by omega), if_pos h2]
    by_cases hm : (now - ts).fdiv 60 = 1 <;> simp [hm]
  · intro now ts h1 h2
    simp only [get_relative_time]
    rw [if_neg (by omega), if_neg (by omega), if_pos h2]
    by_cases hm : (now - ts).fdiv 3600 = 1 <;> simp [hm]
  · intro now ts h1 h2
    simp only [get_relative_time]
    rw [if_neg (by omega), if_neg (by omega), if_neg (by omega), if_pos h2]
    by_cases hm : (now - ts).fdiv 86400 = 1 <;> simp [hm]
  · intro now ts h1
    simp only [get_relative_time]
    rw [if_neg (by omega), if_neg (by omega), if_neg (by omega),
      if_neg (by omega)]
    by_cases hm : (now - ts).fdiv 2592000 = 1 <;> simp [hm]
  · intro n
    have h : n - (n - 45) = 45 := by omega
    simp only [get_relative_time, h]
    decide
  · intro n
    have h : n - (n - 90) = 90 := by omega
    simp only [get_relative_time, h]
    decide
  · intro n
    have h : n - (n - 7200) = 7200 := by omega
    simp only [get_relative_time, h]
    decide
  · intro n
    have h : n - (n - 172800) = 172800 := by omega
    simp only [get_relative_time, h]
    decide

/-- Witness for the amended C8 at two hours elapsed. -/
theorem relative_time_bucketing_witness :
    get_relative_time 7200 0 =
      toString ((7200 - 0 : Int).fdiv 3600) ++ " hour" ++
        (if (7200 - 0 : Int).fdiv 3600 = 1 then "" else "s") ++ " ago" :=
  relative_time_bucketing.2.2.1 7200 0 (by norm_num) (by norm_num)
